import Mathlib

/-!
Verification of the dnsfs lab (DNS file-tunnelling server/client).

The repository consists of two Python modules:
- `dnsfs_server.py`: name sanitization (`s_name`), storage lookup
  (`f_bytes`), base64 chunking (`b64_chunks`), sha256 digests, and the
  query dispatcher (`dns_fs_resolver.resolve`).
- `dnsfs_client.py`: TXT transport (`queryt`), metadata parsing
  (`parse_meta`), and the fetch/verify loop (`fetchf`).

This file gives a shallow embedding of those functions (bytes are `Nat`
values below 256; machine words are `Nat` reduced mod 2^32; fallible
code returns `Option`/`Except`; the filesystem/transport collaborators
become explicit function arguments) and proves the specification claims
about them.
-/

set_option maxRecDepth 100000

namespace Dnsfs

/-! ## SHA-256 (shallow embedding of hashlib.sha256(..).hexdigest()) -/

/-- 2^32, the word modulus for SHA-256 arithmetic. -/
def M32 : Nat := 4294967296

/-- Right rotation of a 32-bit word. -/
def rotr (n x : Nat) : Nat := (x >>> n ||| x <<< (32 - n)) % M32

/-- Bitwise complement of a 32-bit word. -/
def not32 (x : Nat) : Nat := (M32 - 1) ^^^ x

def smallSigma0 (x : Nat) : Nat := rotr 7 x ^^^ rotr 18 x ^^^ (x >>> 3)

def smallSigma1 (x : Nat) : Nat := rotr 17 x ^^^ rotr 19 x ^^^ (x >>> 10)

def bigSigma0 (x : Nat) : Nat := rotr 2 x ^^^ rotr 13 x ^^^ rotr 22 x

def bigSigma1 (x : Nat) : Nat := rotr 6 x ^^^ rotr 11 x ^^^ rotr 25 x

def chF (x y z : Nat) : Nat := (x &&& y) ^^^ (not32 x &&& z)

def majF (x y z : Nat) : Nat := (x &&& y) ^^^ (x &&& z) ^^^ (y &&& z)

/-- The 64 SHA-256 round constants. -/
def shaK : List Nat :=
  [1116352408, 1899447441, 3049323471, 3921009573, 961987163, 1508970993, 2453635748, 2870763221,
   3624381080, 310598401, 607225278, 1426881987, 1925078388, 2162078206, 2614888103, 3248222580,
   3835390401, 4022224774, 264347078, 604807628, 770255983, 1249150122, 1555081692, 1996064986,
   2554220882, 2821834349, 2952996808, 3210313671, 3336571891, 3584528711, 113926993, 338241895,
   666307205, 773529912, 1294757372, 1396182291, 1695183700, 1986661051, 2177026350, 2456956037,
   2730485921, 2820302411, 3259730800, 3345764771, 3516065817, 3600352804, 4094571909, 275423344,
   430227734, 506948616, 659060556, 883997877, 958139571, 1322822218, 1537002063, 1747873779,
   1955562222, 2024104815, 2227730452, 2361852424, 2428436474, 2756734187, 3204031479, 3329325298]

/-- The eight working registers of the compression function. -/
structure H8 where
  a : Nat
  b : Nat
  c : Nat
  d : Nat
  e : Nat
  f : Nat
  g : Nat
  h : Nat
deriving DecidableEq

/-- SHA-256 initial hash value. -/
def shaH0 : H8 :=
  ⟨1779033703, 3144134277, 1013904242, 2773480762, 1359893119, 2600822924, 528734635, 1541459225⟩

/-- One round of the SHA-256 compression function. -/
def shaStep (st : H8) (kw : Nat × Nat) : H8 :=
  let t1 := (st.h + bigSigma1 st.e + chF st.e st.f st.g + kw.1 + kw.2) % M32
  let t2 := (bigSigma0 st.a + majF st.a st.b st.c) % M32
  ⟨(t1 + t2) % M32, st.a, st.b, st.c, (st.d + t1) % M32, st.e, st.f, st.g⟩

/-- Message-schedule extension: `w` is the sliding window of the last 16
words (`w[0] = W[t-16]`, ..., `w[14] = W[t-2]`); produce the next `n` words. -/
def schedExt : Nat → List Nat → List Nat
  | 0, _ => []
  | n + 1, w =>
    let wt := (smallSigma1 (w.getD 14 0) + w.getD 9 0 + smallSigma0 (w.getD 1 0) +
               w.getD 0 0) % M32
    wt :: schedExt n (w.drop 1 ++ [wt])

/-- Extend 16 message words to the 64-word schedule. -/
def schedule (ws : List Nat) : List Nat := ws ++ schedExt 48 ws

/-- Compress one 16-word block into the running hash. -/
def compressBlock (h0 : H8) (ws : List Nat) : H8 :=
  let st := (shaK.zip (schedule ws)).foldl shaStep h0
  ⟨(h0.a + st.a) % M32, (h0.b + st.b) % M32, (h0.c + st.c) % M32, (h0.d + st.d) % M32,
   (h0.e + st.e) % M32, (h0.f + st.f) % M32, (h0.g + st.g) % M32, (h0.h + st.h) % M32⟩

/-- Big-endian 8-byte encoding of a number (the length field of padding). -/
def be8 (n : Nat) : List Nat :=
  [n >>> 56 % 256, n >>> 48 % 256, n >>> 40 % 256, n >>> 32 % 256,
   n >>> 24 % 256, n >>> 16 % 256, n >>> 8 % 256, n % 256]

/-- SHA-256 padding: one 0x80 byte, zeros to 56 mod 64, then the bit length. -/
def padMsg (msg : List Nat) : List Nat :=
  let L := msg.length
  let z := (64 + 56 - (L + 1) % 64) % 64
  msg ++ 128 :: List.replicate z 0 ++ be8 (8 * L)

/-- Group a padded byte list into big-endian 32-bit words. -/
def toWords : List Nat → List Nat
  | b0 :: b1 :: b2 :: b3 :: rest =>
      (b0 * 16777216 + b1 * 65536 + b2 * 256 + b3) :: toWords rest
  | _ => []

/-- Split the word stream into 16-word blocks (structural recursion so the
kernel can evaluate it; padded input is always a multiple of 16 words). -/
def chunkWords : List Nat → List (List Nat)
  | w0 :: w1 :: w2 :: w3 :: w4 :: w5 :: w6 :: w7 ::
    w8 :: w9 :: w10 :: w11 :: w12 :: w13 :: w14 :: w15 :: rest =>
      [w0, w1, w2, w3, w4, w5, w6, w7, w8, w9, w10, w11, w12, w13, w14, w15] ::
        chunkWords rest
  | _ => []

/-- SHA-256 of a byte sequence, as the eight final hash words. -/
def sha256words (msg : List Nat) : H8 :=
  (chunkWords (toWords (padMsg msg))).foldl compressBlock shaH0

/-- Lowercase hex digit. -/
def hexChar (n : Nat) : Char :=
  if n < 10 then Char.ofNat (48 + n) else Char.ofNat (87 + n)

/-- Eight lowercase hex characters of a 32-bit word, most significant first. -/
def wordHex (w : Nat) : List Char :=
  [hexChar (w >>> 28 % 16), hexChar (w >>> 24 % 16), hexChar (w >>> 20 % 16),
   hexChar (w >>> 16 % 16), hexChar (w >>> 12 % 16), hexChar (w >>> 8 % 16),
   hexChar (w >>> 4 % 16), hexChar (w % 16)]

/-- Embedding of `sha256_hex` (both modules): lowercase hex digest of a byte list. -/
def sha256_hex (data : List Nat) : String :=
  let h := sha256words data
  String.mk (wordHex h.a ++ wordHex h.b ++ wordHex h.c ++ wordHex h.d ++
             wordHex h.e ++ wordHex h.f ++ wordHex h.g ++ wordHex h.h)

/-- The bytes of the string "hello world". -/
def helloBytes : List Nat := [104, 101, 108, 108, 111, 32, 119, 111, 114, 108, 100]

/-! ## Base64 (shallow embedding of base64.b64encode / b64decode) -/

/-- The standard base64 alphabet. -/
def b64Alphabet : List Char :=
  "ABCDEFGHIJKLMNOPQRSTUVWXYZabcdefghijklmnopqrstuvwxyz0123456789+/".data

/-- Character for a 6-bit value. -/
def encChar (n : Nat) : Char := b64Alphabet.getD n '?'

/-- 6-bit value of an alphabet character. -/
def decChar (c : Char) : Option Nat := b64Alphabet.indexOf? c

/-- base64-encode a byte list: groups of 3 bytes become 4 characters, a
final group of 1 or 2 bytes is padded with `=`. -/
def b64encodeL : List Nat → List Char
  | [] => []
  | [a] => [encChar (a / 4), encChar (a % 4 * 16), '=', '=']
  | [a, b] => [encChar (a / 4), encChar (a % 4 * 16 + b / 16), encChar (b % 16 * 4), '=']
  | a :: b :: c :: rest =>
      encChar (a / 4) :: encChar (a % 4 * 16 + b / 16) ::
      encChar (b % 16 * 4 + c / 64) :: encChar (c % 64) :: b64encodeL rest

/-- Decode one full (non-padded) quad into its 3 bytes. -/
def decodeQuad4 (c1 c2 c3 c4 : Char) : Option (List Nat) := do
  let n1 ← decChar c1
  let n2 ← decChar c2
  let n3 ← decChar c3
  let n4 ← decChar c4
  pure [n1 * 4 + n2 / 16, n2 % 16 * 16 + n3 / 4, n3 % 4 * 64 + n4]

/-- Decode a sequence of base64 quads; `=` padding is only legal in the
final quad.  A length that is not a multiple of 4 is an error. -/
def b64decodeQuads : List Char → Option (List Nat)
  | [] => some []
  | c1 :: c2 :: c3 :: c4 :: rest =>
    if rest.isEmpty then
      if c4 = '=' then
        if c3 = '=' then do
          let n1 ← decChar c1
          let n2 ← decChar c2
          pure [n1 * 4 + n2 / 16]
        else do
          let n1 ← decChar c1
          let n2 ← decChar c2
          let n3 ← decChar c3
          pure [n1 * 4 + n2 / 16, n2 % 16 * 16 + n3 / 4]
      else decodeQuad4 c1 c2 c3 c4
    else do
      let bytes ← decodeQuad4 c1 c2 c3 c4
      let tail ← b64decodeQuads rest
      pure (bytes ++ tail)
  | _ => none

/-- Embedding of `base64.b64decode` (default mode): characters outside the
base64 alphabet (other than `=`) are discarded, then the quads are decoded. -/
def b64decodeL (s : List Char) : Option (List Nat) :=
  b64decodeQuads (s.filter (fun c => b64Alphabet.contains c || c == '='))

/-! ## Chunking (server constants and `b64_chunks`) -/

/-- Server constant `ZONE = "lab."`. -/
def ZONE : String := "lab."

/-- Server constant `CHUNK_CHARS = 180`. -/
def CHUNK_CHARS : Nat := 180

/-- The slice `s[i : i+CHUNK_CHARS]` of a character list. -/
def sliceAt (s : List Char) (i : Nat) : List Char := (s.drop i).take CHUNK_CHARS

/-- Embedding of `b64_chunks`: base64-encode the data, then slice the text
at indices `0, W, 2W, ...` (Python `range(0, len(b64), W)` with `W = 180`). -/
def b64_chunks (data : List Nat) : List String :=
  let b64 := b64encodeL data
  (List.range ((b64.length + (CHUNK_CHARS - 1)) / CHUNK_CHARS)).map
    (fun k => String.mk (sliceAt b64 (k * CHUNK_CHARS)))

/-! ## Python string primitives used by both modules -/

/-- Embedding of `str.lower()` (per character; the protocol alphabet is ASCII). -/
def pyLower (s : String) : String := String.mk (s.data.map Char.toLower)

/-- Embedding of `str.strip(chars)`: drop the given characters from both ends. -/
def stripChars (bad : List Char) (s : List Char) : List Char :=
  ((s.dropWhile (bad.contains ·)).reverse.dropWhile (bad.contains ·)).reverse

/-- Embedding of `str.split(sep)` for a one-character separator (structural
recursion so the kernel can evaluate it; same semantics as Python:
`"" → [""]`, empty pieces are kept). -/
def splitOnCAux (sep : Char) : List Char → List Char → List (List Char)
  | [], acc => [acc.reverse]
  | c :: rest, acc =>
    if c = sep then acc.reverse :: splitOnCAux sep rest []
    else splitOnCAux sep rest (c :: acc)

/-- Split a character list at every occurrence of `sep`. -/
def splitOnC (sep : Char) (l : List Char) : List (List Char) := splitOnCAux sep l []

/-- Python whitespace characters recognised by `str.strip()` and `int()`. -/
def wsChars : List Char := [' ', '\t', '\n', '\x0b', '\x0c', '\r']

/-- Is `c` an ASCII decimal digit? -/
def isDigitC (c : Char) : Bool := 48 ≤ c.toNat && c.toNat ≤ 57

/-- Numeric value of an ASCII digit. -/
def digitVal (c : Char) : Nat := c.toNat - 48

/-- Digits of a Python integer literal after the first digit: plain digits,
with single underscores allowed between digits. -/
def pyDigitsAux : Nat → List Char → Option Nat
  | acc, [] => some acc
  | acc, '_' :: c :: rest =>
      if isDigitC c then pyDigitsAux (acc * 10 + digitVal c) rest else none
  | _, ['_'] => none
  | acc, c :: rest =>
      if isDigitC c then pyDigitsAux (acc * 10 + digitVal c) rest else none

/-- The digit part of a Python integer literal: at least one digit. -/
def pyDigits : List Char → Option Nat
  | [] => none
  | c :: rest => if isDigitC c then pyDigitsAux (digitVal c) rest else none

/-- Embedding of Python `int(s)` on a character list: strip whitespace,
optional single sign, then decimal digits (underscores allowed between
digits); anything else raises `ValueError`, modelled as `none`. -/
def pyIntL (s : List Char) : Option Int :=
  match stripChars wsChars s with
  | '+' :: rest => (pyDigits rest).map (fun n => (n : Int))
  | '-' :: rest => (pyDigits rest).map (fun n => -(n : Int))
  | l => (pyDigits l).map (fun n => (n : Int))

/-- Embedding of Python `int(s)` on a string. -/
def pyInt (s : String) : Option Int := pyIntL s.data

/-! ## Server (dnsfs_server.py) -/

/-- The allowed characters of a sanitized name. -/
def okChars : List Char := "abcdefghijklmnopqrstuvwxyz0123456789-_".data

/-- Embedding of `s_name` on a character list: lowercase, then keep only
allowed characters. -/
def s_nameL (l : List Char) : List Char :=
  (l.map Char.toLower).filter (fun c => okChars.contains c)

/-- Embedding of `s_name`: lowercase, then keep only allowed characters. -/
def s_name (s : String) : String := String.mk (s_nameL s.data)

/-- The storage collaborator: bytes of each existing regular file under
`store/`, by file name. -/
def Store : Type := String → Option (List Nat)

/-- Embedding of `f_bytes`: try `name`, `name.bin`, `name.txt` in order and
return the bytes of the first existing file; `none` models
`FileNotFoundError`. -/
def f_bytes (store : Store) (name : String) : Option (List Nat) :=
  [name, name ++ ".bin", name ++ ".txt"].findSome? store

/-- DNS reply status as the dispatcher sets it. -/
inductive RCode where
  | noerror
  | nxdomain
deriving DecidableEq

/-- A dispatcher reply: status plus the single TXT answer, if any. -/
structure Reply where
  rcode : RCode
  answer : Option String
deriving DecidableEq

/-- A negative reply (`rcode = NXDOMAIN`, no answer record). -/
def nxReply : Reply := ⟨.nxdomain, none⟩

/-- A positive reply with one TXT answer. -/
def okReply (payload : String) : Reply := ⟨.noerror, some payload⟩

/-- The welcome payload for an empty label. -/
def welcomeMsg : String := "dnsfs-lab: use meta.<name>.lab"

/-- The meta payload for a file's bytes (server line 83). -/
def meta_payload (data : List Nat) : String :=
  "chunks=" ++ toString (b64_chunks data).length ++ ";enc=base64;sha256=" ++
    sha256_hex data ++ ";bytes=" ++ toString data.length

/-- The `meta.<name>.lab` branch of `resolve` (server lines 74-85). -/
def meta_route (store : Store) (rawname : List Char) : Reply :=
  match f_bytes store (String.mk (s_nameL rawname)) with
  | none => nxReply
  | some data => okReply (meta_payload data)

/-- The chunk branch of `resolve` after the index is parsed
(server lines 96-108). -/
def chunk_lookup (store : Store) (name : String) (idx : Int) : Reply :=
  match f_bytes store name with
  | none => nxReply
  | some data =>
    if idx < 0 ∨ ((b64_chunks data).length : Int) ≤ idx then nxReply
    else okReply ((b64_chunks data).getD idx.toNat (""))

/-- The `chunk<N>.<name>.lab` branch of `resolve` (server lines 88-108):
sanitize the name, parse the index with Python `int`, then look up. -/
def chunk_route (store : Store) (idxPart rawname : List Char) : Reply :=
  match pyIntL idxPart with
  | none => nxReply
  | some idx => chunk_lookup store (String.mk (s_nameL rawname)) idx

/-- Embedding of `dns_fs_resolver.resolve`: zone check, type check, label
extraction, then routing on the dot-separated label parts. -/
def resolve (store : Store) (qnameRaw qtypeName : String) : Reply :=
  let qname := qnameRaw.data.map Char.toLower
  if ¬ ZONE.data.isSuffixOf qname then nxReply
  else if qtypeName ≠ "TXT" then nxReply
  else
    let label := stripChars ['.'] (qname.take (qname.length - ZONE.data.length))
    if label = [] then okReply welcomeMsg
    else
      match splitOnC '.' label with
      | [p0, p1] =>
        if p0 = "meta".data then meta_route store p1
        else if ("chunk").data.isPrefixOf p0 then chunk_route store (p0.drop 5) p1
        else nxReply
      | _ => nxReply

/-! ## Client (dnsfs_client.py) -/

/-- Client constant `ZONE = "lab"` (no trailing dot, unlike the server's). -/
def ZONEC : String := "lab"

/-- The transport collaborator: sends a TXT question for a name and either
returns the server's reply or fails (socket error / timeout). -/
def Transport : Type := String → Option Reply

/-- The client's view of the filesystem: contents by path. -/
def FS : Type := String → Option (List Nat)

/-- Everything `fetchf` can raise (`RuntimeError`, `KeyError`,
`ValueError`, `binascii.Error`/`UnicodeEncodeError`). -/
inductive FErr where
  | transport
  | keyMissing
  | valueError
  | decodeError
  | sizeMismatch
  | shaMismatch
deriving DecidableEq

deriving instance DecidableEq for Except

/-- Embedding of `queryt`: send the question; a missing answer, a non-zero
rcode, or an empty answer section raises; otherwise return the first TXT
string with surrounding quotes stripped. -/
def queryt (tr : Transport) (name : String) : Except FErr String :=
  match tr name with
  | none => .error .transport
  | some r =>
    match r.rcode, r.answer with
    | .noerror, some txt => .ok (String.mk (stripChars ['"'] txt.data))
    | _, _ => .error .transport

/-- Embedding of `parse_meta`: split on `;`, keep segments containing `=`,
split each at the first `=`, strip whitespace from key and value.  The
resulting association list models the Python dict (later keys override,
see `dictGet`). -/
def parse_meta (meta : String) : List (String × String) :=
  (splitOnC ';' meta.data).foldl
    (fun out part =>
      if part.contains '=' then
        let k := part.takeWhile (· ≠ '=')
        let v := part.drop (k.length + 1)
        out ++ [(String.mk (stripChars wsChars k), String.mk (stripChars wsChars v))]
      else out)
    []

/-- Dict lookup on the association list produced by `parse_meta`
(the last binding of a key wins, as in a Python dict built by assignment). -/
def dictGet (d : List (String × String)) (k : String) : Option String :=
  (d.reverse.find? (fun kv => kv.1 == k)).map (fun kv => kv.2)

/-- The chunk-retrieval loop of `fetchf` (lines 47-49): query
`chunk<i>.<name>.<zone>` for each index in order, stopping at the first
failure. -/
def fetchLoop (tr : Transport) (name : String) : List Nat → Except FErr (List String)
  | [] => .ok []
  | i :: rest =>
    match queryt tr ("chunk" ++ toString i ++ "." ++ name ++ "." ++ ZONEC) with
    | .error e => .error e
    | .ok c =>
      match fetchLoop tr name rest with
      | .error e => .error e
      | .ok cs => .ok (c :: cs)

/-- The metadata-extraction stage of `fetchf` (client lines 43-45):
`chunk_count = int(meta["chunks"])` (a missing key raises `KeyError`, a bad
value `ValueError`), `expected_sha = meta.get("sha256", "")`, and
`expected_bytes = int(meta.get("bytes", "0"))` (a present but non-numeric
value raises `ValueError`). -/
def meta_stage (meta : List (String × String)) : Except FErr (Int × String × Int) :=
  match dictGet meta ("chunks") with
  | none => .error .keyMissing
  | some chunksVal =>
    match pyInt chunksVal with
    | none => .error .valueError
    | some chunkCount =>
      let expectedSha := (dictGet meta ("sha256")).getD ("")
      match pyInt ((dictGet meta ("bytes")).getD ("0")) with
      | none => .error .valueError
      | some expectedBytes => .ok (chunkCount, expectedSha, expectedBytes)

/-- Embedding of `fetchf`: the filesystem is threaded explicitly; every
`raise` leaves it untouched and only the final `out_path.write_bytes(data)`
changes it.  Returns what the Python function returns (`out_path`) or the
error raised. -/
def fetchf (tr : Transport) (name outPath : String) (fs : FS) : Except FErr String × FS :=
  match queryt tr ("meta." ++ name ++ "." ++ ZONEC) with
  | .error e => (.error e, fs)
  | .ok metaTxt =>
    match meta_stage (parse_meta metaTxt) with
    | .error e => (.error e, fs)
    | .ok (chunkCount, expectedSha, expectedBytes) =>
      match fetchLoop tr name (List.range chunkCount.toNat) with
      | .error e => (.error e, fs)
      | .ok chunks =>
        if (String.join chunks).data.all (fun c => c.toNat < 128) then
          match b64decodeL (String.join chunks).data with
          | none => (.error .decodeError, fs)
          | some data =>
            if expectedBytes ≠ 0 ∧ (data.length : Int) ≠ expectedBytes then
              (.error .sizeMismatch, fs)
            else if expectedSha ≠ "" ∧ sha256_hex data ≠ expectedSha then
              (.error .shaMismatch, fs)
            else
              (.ok outPath, fun p => if p = outPath then some data else fs p)
        else (.error .decodeError, fs)

/-! ## Concrete scenario: the stored file `hello` -/

/-- A storage state holding one file `hello` with bytes "hello world". -/
def helloStore : Store := fun n => if n = "hello" then some helloBytes else none

/-- A transport backed by the real dispatcher over `helloStore` (the DNS
library turns the question name into an absolute lowercase name with a
trailing dot before the server sees it). -/
def helloTr : Transport := fun q => some (resolve helloStore (q ++ ".") "TXT")

/-- An empty client filesystem. -/
def emptyFS : FS := fun _ => none

/-! ## Theorems: base64 round trip -/

/-- Decoding inverts the alphabet on 6-bit values. -/
theorem decChar_encChar : ∀ n < 64, decChar (encChar n) = some n := by decide

/-- An alphabet character is never the padding character. -/
theorem encChar_ne_pad : ∀ n < 64, encChar n ≠ '=' := by decide

/-- Alphabet characters survive the decoder's filter. -/
theorem encChar_keep :
    ∀ n < 64, (b64Alphabet.contains (encChar n) || encChar n == '=') = true := by decide

/-- The padding character survives the decoder's filter. -/
theorem pad_keep : (b64Alphabet.contains '=' || '=' == '=') = true := by decide

/-- base64 encoding of a nonempty byte list is nonempty. -/
theorem b64encodeL_ne_nil (a : Nat) (l : List Nat) : b64encodeL (a :: l) ≠ [] := by
  match l with
  | [] => simp [b64encodeL]
  | [_] => simp [b64encodeL]
  | _ :: _ :: _ => simp [b64encodeL]

/-- The decoder's filter keeps every character the encoder emits. -/
theorem filter_b64encodeL : ∀ (b : List Nat), (∀ x ∈ b, x < 256) →
    (b64encodeL b).filter (fun c => b64Alphabet.contains c || c == '=') = b64encodeL b
  | [], _ => rfl
  | [a], h => by
    have ha : a < 256 := h a (by simp)
    simp only [b64encodeL, List.filter]
    rw [encChar_keep _ (by omega), encChar_keep _ (by omega), pad_keep]
  | [a, b], h => by
    have ha : a < 256 := h a (by simp)
    have hb : b < 256 := h b (by simp)
    simp only [b64encodeL, List.filter]
    rw [encChar_keep _ (by omega), encChar_keep _ (by omega), encChar_keep _ (by omega),
      pad_keep]
  | a :: b :: c :: rest, h => by
    have ha : a < 256 := h a (by simp)
    have hb : b < 256 := h b (by simp)
    have hc : c < 256 := h c (by simp)
    have ih := filter_b64encodeL rest (fun x hx => h x (by simp [hx]))
    simp only [b64encodeL, List.filter]
    rw [encChar_keep _ (by omega), encChar_keep _ (by omega), encChar_keep _ (by omega),
      encChar_keep _ (by omega)]
    simpa [b64encodeL] using ih

/-- Decoding the quads of an encoded byte list recovers the bytes. -/
theorem b64decodeQuads_encodeL : ∀ (b : List Nat), (∀ x ∈ b, x < 256) →
    b64decodeQuads (b64encodeL b) = some b
  | [], _ => rfl
  | [a], h => by
    have ha : a < 256 := h a (by simp)
    simp only [b64encodeL, b64decodeQuads, List.isEmpty, if_true]
    rw [decChar_encChar _ (by omega), decChar_encChar _ (by omega)]
    simp
    omega
  | [a, b], h => by
    have ha : a < 256 := h a (by simp)
    have hb : b < 256 := h b (by simp)
    simp only [b64encodeL, b64decodeQuads, List.isEmpty, if_true]
    rw [if_neg (encChar_ne_pad _ (by omega)),
      decChar_encChar _ (by omega), decChar_encChar _ (by omega),
      decChar_encChar _ (by omega)]
    simp
    constructor <;> omega
  | a :: b :: c :: rest, h => by
    have ha : a < 256 := h a (by simp)
    have hb : b < 256 := h b (by simp)
    have hc : c < 256 := h c (by simp)
    have ih := b64decodeQuads_encodeL rest (fun x hx => h x (by simp [hx]))
    match rest with
    | [] =>
      simp only [b64encodeL, b64decodeQuads, List.isEmpty, if_true]
      rw [if_neg (encChar_ne_pad _ (by omega))]
      simp only [decodeQuad4]
      rw [decChar_encChar _ (by omega), decChar_encChar _ (by omega),
        decChar_encChar _ (by omega), decChar_encChar _ (by omega)]
      simp
      refine ⟨by omega, by omega, by omega⟩
    | r :: rs =>
      obtain ⟨y, ys, hys⟩ := List.exists_cons_of_ne_nil (b64encodeL_ne_nil r rs)
      rw [hys] at ih
      simp only [b64encodeL]
      rw [hys]
      simp only [b64decodeQuads, List.isEmpty, decodeQuad4]
      rw [decChar_encChar _ (by omega), decChar_encChar _ (by omega),
        decChar_encChar _ (by omega), decChar_encChar _ (by omega), ih]
      simp
      refine ⟨by omega, by omega, by omega⟩

/-- `b64decode` inverts `b64encode` on byte lists. -/
theorem b64decodeL_encodeL (b : List Nat) (h : ∀ x ∈ b, x < 256) :
    b64decodeL (b64encodeL b) = some b := by
  unfold b64decodeL
  rw [filter_b64encodeL b h, b64decodeQuads_encodeL b h]

/-! ## Theorems: chunking reassembles the base64 text -/

/-- `String.append` concatenates the underlying character lists. -/
theorem data_append_str (a b : String) : (a ++ b).data = a.data ++ b.data := rfl

/-- Folding `String.append` concatenates all the character lists. -/
theorem foldl_append_data (l : List String) :
    ∀ init : String, (l.foldl (· ++ ·) init).data = init.data ++ (l.map String.data).flatten := by
  induction l with
  | nil => intro init; simp
  | cons s rest ih =>
    intro init
    simp only [List.foldl_cons, List.map_cons, List.flatten_cons]
    rw [ih, data_append_str, List.append_assoc]

/-- `String.join` of packed character lists is their concatenation. -/
theorem stringJoin_mk_data (l : List (List Char)) :
    (String.join (l.map String.mk)).data = l.flatten := by
  have h := foldl_append_data (l.map String.mk) ""
  simp only [String.join]
  rw [h]
  have hid : (l.map (String.data ∘ String.mk)) = l := by
    rw [show String.data ∘ String.mk = id from rfl, List.map_id]
  simp only [List.map_map, hid, List.nil_append, String.data]

/-- Concatenating the width-`CHUNK_CHARS` slices of a list in index order
reproduces the list. -/
theorem join_slices (s : List Char) :
    ((List.range ((s.length + (CHUNK_CHARS - 1)) / CHUNK_CHARS)).map
        (fun k => sliceAt s (k * CHUNK_CHARS))).flatten = s := by
  suffices H : ∀ n : Nat, ∀ s : List Char, s.length ≤ n →
      ((List.range ((s.length + (CHUNK_CHARS - 1)) / CHUNK_CHARS)).map
        (fun k => sliceAt s (k * CHUNK_CHARS))).flatten = s by
    exact H s.length s le_rfl
  intro n
  induction n with
  | zero =>
    intro s hs
    have : s = [] := List.eq_nil_of_length_eq_zero (Nat.le_zero.mp hs)
    subst this
    rfl
  | succ n ih =>
    intro s hs
    rcases s with _ | ⟨c, cs⟩
    · rfl
    · set s := c :: cs with hsdef
      have hL : 1 ≤ s.length := by simp [hsdef]
      have hcount : (s.length + (CHUNK_CHARS - 1)) / CHUNK_CHARS =
          ((s.drop CHUNK_CHARS).length + (CHUNK_CHARS - 1)) / CHUNK_CHARS + 1 := by
        simp only [List.length_drop, CHUNK_CHARS]
        omega
      rw [hcount, List.range_succ_eq_map]
      simp only [List.map_cons, List.flatten_cons, List.map_map]
      have hslice : ∀ k : Nat,
          sliceAt s ((k + 1) * CHUNK_CHARS) = sliceAt (s.drop CHUNK_CHARS) (k * CHUNK_CHARS) := by
        intro k
        simp only [sliceAt, List.drop_drop]
        congr 1
        congr 1
        ring
      have hmap : (List.range (((s.drop CHUNK_CHARS).length + (CHUNK_CHARS - 1)) / CHUNK_CHARS)).map
            ((fun k => sliceAt s (k * CHUNK_CHARS)) ∘ (· + 1)) =
          (List.range (((s.drop CHUNK_CHARS).length + (CHUNK_CHARS - 1)) / CHUNK_CHARS)).map
            (fun k => sliceAt (s.drop CHUNK_CHARS) (k * CHUNK_CHARS)) := by
        refine List.map_congr_left ?_
        intro k _
        simp only [Function.comp]
        exact hslice k
      rw [hmap, ih (s.drop CHUNK_CHARS) (by simp [List.length_drop, CHUNK_CHARS]; omega)]
      simp only [sliceAt, Nat.zero_mul, List.drop_zero]
      exact List.take_append_drop CHUNK_CHARS s

/-- Joining the chunks of `b64_chunks` reproduces the base64 text. -/
theorem join_b64_chunks (b : List Nat) :
    (String.join (b64_chunks b)).data = b64encodeL b := by
  unfold b64_chunks
  rw [show (List.range (((b64encodeL b).length + (CHUNK_CHARS - 1)) / CHUNK_CHARS)).map
        (fun k => String.mk (sliceAt (b64encodeL b) (k * CHUNK_CHARS))) =
      ((List.range (((b64encodeL b).length + (CHUNK_CHARS - 1)) / CHUNK_CHARS)).map
        (fun k => sliceAt (b64encodeL b) (k * CHUNK_CHARS))).map String.mk by
    rw [List.map_map]; rfl]
  rw [stringJoin_mk_data, join_slices]

/-- C1: for every byte sequence `b` (including the empty sequence and ones
whose base64 text spans several chunks), concatenating the chunks of
`b64_chunks b` in ascending index order and base64-decoding the result
yields exactly `b`. -/
theorem chunks_decode_roundtrip (b : List Nat) (h : ∀ x ∈ b, x < 256) :
    b64decodeL (String.join (b64_chunks b)).data = some b := by
  rw [join_b64_chunks]
  exact b64decodeL_encodeL b h

/-- C1 witness: a 200-byte input whose base64 text (268 chars) spans two
chunks round-trips. -/
theorem chunks_decode_roundtrip_witness :
    (∀ x ∈ List.replicate 200 65, x < 256) ∧
      b64decodeL (String.join (b64_chunks (List.replicate 200 65))).data =
        some (List.replicate 200 65) :=
  ⟨by decide, chunks_decode_roundtrip (List.replicate 200 65) (by decide)⟩

/-! ## Theorems: chunk count exactness -/

/-- C5: the number of chunks is `ceil(len(base64(b)) / W)` with `W = 180`;
an empty input yields no chunks; and when the base64 length is an exact
multiple of `W` the final chunk has length exactly `W`. -/
theorem b64_chunks_count (b : List Nat) :
    (b64_chunks b).length = ((b64encodeL b).length + (CHUNK_CHARS - 1)) / CHUNK_CHARS ∧
    (b = [] → b64_chunks b = []) ∧
    ((b64encodeL b).length % CHUNK_CHARS = 0 → b ≠ [] →
      ((b64_chunks b).getLast?).map String.length = some CHUNK_CHARS) := by
  refine ⟨by simp [b64_chunks], ?_, ?_⟩
  · rintro rfl; rfl
  · intro hmod hb
    have hnil : b64encodeL b ≠ [] := by
      cases b with
      | nil => exact absurd rfl hb
      | cons a l => exact b64encodeL_ne_nil a l
    have hLpos : 0 < (b64encodeL b).length := List.length_pos.mpr hnil
    obtain ⟨m, hm⟩ : ∃ m, ((b64encodeL b).length + (CHUNK_CHARS - 1)) / CHUNK_CHARS = m + 1 := by
      have h1 : 1 ≤ ((b64encodeL b).length + (CHUNK_CHARS - 1)) / CHUNK_CHARS := by
        simp only [CHUNK_CHARS]; omega
      exact ⟨((b64encodeL b).length + (CHUNK_CHARS - 1)) / CHUNK_CHARS - 1,
        (Nat.succ_pred_eq_of_pos h1).symm⟩
    simp only [b64_chunks]
    rw [hm, List.range_succ, List.map_append, List.map_cons, List.map_nil,
      List.getLast?_concat]
    simp only [Option.map_some', Option.some.injEq]
    show (String.mk (sliceAt (b64encodeL b) (m * CHUNK_CHARS))).length = CHUNK_CHARS
    simp only [String.length, sliceAt, List.length_take, List.length_drop]
    simp only [CHUNK_CHARS] at hm hmod ⊢
    omega

/-- C5 witness: 135 zero bytes have a 180-character base64 text, one full
chunk of exactly 180 characters. -/
theorem b64_chunks_count_witness :
    (b64encodeL (List.replicate 135 0)).length % CHUNK_CHARS = 0 ∧
    (b64_chunks (List.replicate 135 0)).length =
      ((b64encodeL (List.replicate 135 0)).length + (CHUNK_CHARS - 1)) / CHUNK_CHARS ∧
    ((b64_chunks (List.replicate 135 0)).getLast?).map String.length = some CHUNK_CHARS :=
  ⟨by decide, (b64_chunks_count (List.replicate 135 0)).1,
    (b64_chunks_count (List.replicate 135 0)).2.2 (by decide) (by decide)⟩

/-! ## Theorems: name sanitization -/

/-- Characters of the allowed alphabet are unchanged by lowercasing. -/
theorem lower_fixed_on_ok : ∀ c ∈ okChars, Char.toLower c = c := by decide

/-- C9: `s_name` only emits characters of the allowed alphabet, is
idempotent, and (being a total function) raises no error. -/
theorem s_name_props (s : String) :
    ((s_name s).data.all (fun c => okChars.contains c)) = true ∧
      s_name (s_name s) = s_name s := by
  constructor
  · rw [List.all_eq_true]
    intro c hc
    exact (List.mem_filter.mp hc).2
  · show String.mk (s_nameL (String.mk (s_nameL s.data)).data) = String.mk (s_nameL s.data)
    congr 1
    show s_nameL (s_nameL s.data) = s_nameL s.data
    unfold s_nameL
    have hmap : ((s.data.map Char.toLower).filter (fun c => okChars.contains c)).map
        Char.toLower = (s.data.map Char.toLower).filter (fun c => okChars.contains c) := by
      have h1 : ∀ c ∈ (s.data.map Char.toLower).filter (fun c => okChars.contains c),
          Char.toLower c = id c := by
        intro c hc
        exact lower_fixed_on_ok c (by simpa using (List.mem_filter.mp hc).2)
      rw [List.map_congr_left h1, List.map_id]
    rw [hmap, List.filter_filter]
    simp

/-! ## Theorems: dispatcher determinism -/

/-- C10: for a fixed storage state, two invocations of `resolve` with the
same query name and record type produce the same status and payload. -/
theorem resolve_deterministic (store : Store) (q t : String) (r1 r2 : Reply)
    (h1 : r1 = resolve store q t) (h2 : r2 = resolve store q t) :
    r1.rcode = r2.rcode ∧ r1.answer = r2.answer := by
  subst h1; subst h2; exact ⟨rfl, rfl⟩

/-- C10 witness: the two hypotheses hold for a concrete double invocation. -/
theorem resolve_deterministic_witness :
    (resolve helloStore ("meta.hello.lab.") "TXT").rcode =
        (resolve helloStore ("meta.hello.lab.") "TXT").rcode ∧
      (resolve helloStore ("meta.hello.lab.") "TXT").answer =
        (resolve helloStore ("meta.hello.lab.") "TXT").answer :=
  resolve_deterministic helloStore ("meta.hello.lab.") "TXT" _ _ rfl rfl

/-! ## Theorems: storage lookup order and handler misses -/

/-- C6: the lookup tries `name`, `name.bin`, `name.txt` in that order and
returns the first existing file; when none exists both handlers reply with
the negative status. -/
theorem f_bytes_order (store : Store) (n : String) :
    (∀ d, store n = some d → f_bytes store n = some d) ∧
    (∀ d, store n = none → store (n ++ ".bin") = some d → f_bytes store n = some d) ∧
    (∀ d, store n = none → store (n ++ ".bin") = none → store (n ++ ".txt") = some d →
      f_bytes store n = some d) ∧
    (store n = none → store (n ++ ".bin") = none → store (n ++ ".txt") = none →
      f_bytes store n = none ∧
      (∀ raw, String.mk (s_nameL raw) = n →
        meta_route store raw = nxReply ∧ ∀ X, chunk_route store X raw = nxReply)) := by
  refine ⟨?_, ?_, ?_, ?_⟩
  · intro d h
    simp [f_bytes, List.findSome?, h]
  · intro d h1 h2
    simp [f_bytes, List.findSome?, h1, h2]
  · intro d h1 h2 h3
    simp [f_bytes, List.findSome?, h1, h2, h3]
  · intro h1 h2 h3
    have hf : f_bytes store n = none := by
      simp [f_bytes, List.findSome?, h1, h2, h3]
    refine ⟨hf, ?_⟩
    intro raw hraw
    constructor
    · unfold meta_route
      rw [hraw]
      show (match f_bytes store n with
            | none => nxReply
            | some data => okReply (meta_payload data)) = nxReply
      rw [hf]
    · intro X
      unfold chunk_route
      rw [hraw]
      cases hX : pyIntL X with
      | none => rfl
      | some idx =>
        show chunk_lookup store n idx = nxReply
        unfold chunk_lookup
        rw [hf]

/-- C6 witness: a store holding only `a.bin` is found through the second
candidate, and an empty store misses everywhere. -/
theorem f_bytes_order_witness :
    f_bytes (fun p => if p = "a.bin" then some [7] else none) "a" = some [7] ∧
    f_bytes (fun _ => none) "a" = none ∧
    meta_route (fun _ => none) "a".data = nxReply ∧
    chunk_route (fun _ => none) "0".data ("a").data = nxReply := by
  refine ⟨?_, ?_, ?_, ?_⟩
  · exact (f_bytes_order (fun p => if p = "a.bin" then some [7] else none) "a").2.1
      [7] (by decide) (by decide)
  · exact ((f_bytes_order (fun _ => none) "a").2.2.2 rfl rfl rfl).1
  · exact (((f_bytes_order (fun _ => none) "a").2.2.2 rfl rfl rfl).2 ("a").data (by decide)).1
  · exact (((f_bytes_order (fun _ => none) "a").2.2.2 rfl rfl rfl).2 ("a").data (by decide)).2
      ("0").data

/-! ## Theorems: chunk index range -/

/-- C7: for a stored file with bytes `b`, every parsed index at or beyond
the chunk count gets the negative reply (in particular every index when
`b` is empty), and every index below it gets `OK` with exactly that chunk. -/
theorem chunk_lookup_range (store : Store) (name : String) (b : List Nat) (i : Nat)
    (hf : f_bytes store name = some b) :
    ((b64_chunks b).length ≤ i → chunk_lookup store name (i : Int) = nxReply) ∧
    (i < (b64_chunks b).length →
      chunk_lookup store name (i : Int) = okReply ((b64_chunks b).getD i (""))) := by
  constructor
  · intro hi
    unfold chunk_lookup
    rw [hf]
    show (if (i : Int) < 0 ∨ ((b64_chunks b).length : Int) ≤ (i : Int) then nxReply
          else okReply ((b64_chunks b).getD ((i : Int)).toNat (""))) = nxReply
    rw [if_pos]
    right
    exact_mod_cast hi
  · intro hi
    unfold chunk_lookup
    rw [hf]
    show (if (i : Int) < 0 ∨ ((b64_chunks b).length : Int) ≤ (i : Int) then nxReply
          else okReply ((b64_chunks b).getD ((i : Int)).toNat (""))) =
      okReply ((b64_chunks b).getD i (""))
    rw [if_neg]
    · rw [Int.toNat_natCast]
    · push_neg
      constructor
      · exact_mod_cast Int.natCast_nonneg i
      · exact_mod_cast hi

/-- C7 witness: the single-chunk `hello` file serves index 0 and rejects
index 1. -/
theorem chunk_lookup_range_witness :
    chunk_lookup helloStore ("hello") ((1 : Nat) : Int) = nxReply ∧
    chunk_lookup helloStore ("hello") ((0 : Nat) : Int) =
      okReply ((b64_chunks helloBytes).getD 0 ("")) :=
  ⟨(chunk_lookup_range helloStore ("hello") helloBytes 1 (by decide)).1 (by decide),
   (chunk_lookup_range helloStore ("hello") helloBytes 0 (by decide)).2 (by decide)⟩

/-! ## Theorems: chunk index parsing (C3) -/

/-- C3 counterexample: the label `chunk+0.hello` has an index part `+0`
that is not a plain digit string, yet the dispatcher serves chunk 0 with a
payload instead of the negative status. -/
theorem chunk_signed_index_counterexample :
    resolve helloStore ("chunk+0.hello.lab.") "TXT" = okReply ("aGVsbG8gd29ybGQ=") ∧
    resolve helloStore ("chunk+0.hello.lab.") "TXT" ≠ nxReply := by decide

/-- C3 (amended): the chunk branch replies with the negative status
exactly when Python `int` fails on the index part (empty or containing a
character that is not a digit, an underscore between digits, surrounding
whitespace, or a single leading sign); a signed index such as `+0` parses
and can be served. -/
theorem chunk_route_nonnumeric (store : Store) (X raw : List Char)
    (h : pyIntL X = none) : chunk_route store X raw = nxReply := by
  unfold chunk_route
  rw [h]

/-- C3 witness: a truly non-numeric index part is rejected. -/
theorem chunk_route_nonnumeric_witness :
    pyIntL ("x").data = none ∧ chunk_route helloStore ("x").data ("hello").data = nxReply :=
  ⟨by decide, chunk_route_nonnumeric helloStore ("x").data ("hello").data (by decide)⟩

/-! ## Theorems: metadata parsing failures (C4) -/

/-- C4 counterexample: a payload whose mandatory `chunks` key is present
and numeric still fails the client's metadata stage, because the optional
`bytes` key has a non-numeric value (`int(meta.get("bytes", "0"))`
raises). -/
theorem meta_bytes_nonnumeric_counterexample :
    meta_stage (parse_meta ("chunks=1;bytes=x")) = .error .valueError ∧
    dictGet (parse_meta ("chunks=1;bytes=x")) "chunks" = some ("1") ∧
    pyInt ("1") = some 1 := by decide

/-- C4 (amended): the client's metadata stage fails exactly when the
mandatory `chunks` key is absent, or its value is non-numeric, or the
optional `bytes` key is present with a non-numeric value; unknown keys and
a missing `sha256`/`bytes` key never cause a failure. -/
theorem meta_stage_error_iff (s : String) :
    (∃ e, meta_stage (parse_meta s) = .error e) ↔
      (dictGet (parse_meta s) "chunks" = none ∨
       (∃ v, dictGet (parse_meta s) "chunks" = some v ∧ pyInt v = none) ∨
       pyInt ((dictGet (parse_meta s) "bytes").getD ("0")) = none) := by
  generalize parse_meta s = d
  unfold meta_stage
  cases hc : dictGet d ("chunks") with
  | none => simp [hc]
  | some v =>
    cases hv : pyInt v with
    | none => simp [hc, hv]
    | some k =>
      cases hb : pyInt ((dictGet d ("bytes")).getD ("0")) with
      | none => simp [hc, hv, hb]
      | some eb => simp [hc, hv, hb]

/-- C4 witness: the amended criterion classifies the counterexample input
as failing. -/
theorem meta_stage_error_iff_witness :
    ∃ e, meta_stage (parse_meta ("chunks=1;bytes=x")) = .error e :=
  (meta_stage_error_iff ("chunks=1;bytes=x")).mpr (Or.inr (Or.inr (by decide)))

/-! ## Theorems: the `hello` scenario (C2) -/

/-- C2 counterexample: the served meta payload is not the string stated in
the specification (whose `sha256` value has only 63 hex digits). -/
theorem meta_payload_hash_counterexample :
    (resolve helloStore ("meta.hello.lab.") "TXT").answer ≠
      some ("chunks=1;enc=base64;sha256=b94d27b9934d3e08a52e52d7da7dabfac484efe37a5380ee9088f7ace2efcde;bytes=11") := by
  decide

/-- C2 (amended): for the stored file `hello` = "hello world", the meta
reply carries `chunks=1`, `bytes=11` and the full 64-digit sha256
`b94d...cde9`; chunk 0 is `aGVsbG8gd29ybGQ=`; and the client fetch against
the real dispatcher succeeds, writing exactly the original 11 bytes with
both the length and the digest check armed. -/
theorem hello_scenario :
    resolve helloStore ("meta.hello.lab.") "TXT" =
      okReply ("chunks=1;enc=base64;sha256=b94d27b9934d3e08a52e52d7da7dabfac484efe37a5380ee9088f7ace2efcde9;bytes=11") ∧
    resolve helloStore ("chunk0.hello.lab.") "TXT" = okReply ("aGVsbG8gd29ybGQ=") ∧
    (fetchf helloTr ("hello") "out" emptyFS).1 = .ok ("out") ∧
    (fetchf helloTr ("hello") "out" emptyFS).2 ("out") = some helloBytes ∧
    meta_stage (parse_meta ("chunks=1;enc=base64;sha256=b94d27b9934d3e08a52e52d7da7dabfac484efe37a5380ee9088f7ace2efcde9;bytes=11")) =
      .ok (1, "b94d27b9934d3e08a52e52d7da7dabfac484efe37a5380ee9088f7ace2efcde9", 11) := by
  refine ⟨by decide, by decide, by decide, by decide, by decide⟩

/-! ## Theorems: failures write nothing (C8) -/

/-- Structure of a `fetchf` run: either the filesystem comes back
untouched, or the run succeeded and only the output path was written. -/
theorem fetchf_shape (tr : Transport) (name outPath : String) (fs : FS) :
    (fetchf tr name outPath fs).2 = fs ∨
    ∃ data, fetchf tr name outPath fs =
      (.ok outPath, fun p => if p = outPath then some data else fs p) := by
  unfold fetchf
  repeat' split
  all_goals first
    | exact Or.inl rfl
    | exact Or.inr ⟨_, rfl⟩

/-- C8: whenever `fetchf` fails — metadata query failure, malformed
metadata, chunk query failure, decode failure, length mismatch or digest
mismatch — the error is returned and the filesystem (in particular the
output path) is exactly as before: no partial result is written. -/
theorem fetchf_error_leaves_fs (tr : Transport) (name outPath : String) (fs : FS)
    (e : FErr) (h : (fetchf tr name outPath fs).1 = .error e) :
    (fetchf tr name outPath fs).2 = fs := by
  rcases fetchf_shape tr name outPath fs with h2 | ⟨data, h2⟩
  · exact h2
  · rw [h2] at h
    simp at h

/-- C8 witness: a transport that never answers makes the fetch fail and
leaves the (empty) filesystem untouched. -/
theorem fetchf_error_leaves_fs_witness :
    (fetchf (fun _ => none) "hello" "out" emptyFS).1 = .error .transport ∧
    (fetchf (fun _ => none) "hello" "out" emptyFS).2 = emptyFS :=
  ⟨by decide, fetchf_error_leaves_fs (fun _ => none) "hello" "out" emptyFS .transport
    (by decide)⟩

end Dnsfs



